import Mathlib

/-!
# The measurement adapter of `examples/src/index.js`

The file subscribes to the port `getBoundingClientRects`.  On a message `ids` it writes one
line to the console and schedules a callback for the next animation frame; the callback folds
over `ids`, looks each identifier up with `document.querySelector`, collects the layout box
of every element found and sends the collected array on the port `gotBoundingClientRects`.

The browser is not part of the repository, so the document is a parameter: a `Document` is
whatever `document.querySelector` answers for each selector string (it throws a `SyntaxError`,
returns `null`, or returns an element).  The effects of the code (console, scheduled frame
callbacks, lookups, port sends) are fields of an explicit `World` that the code threads.
-/

namespace FlipAnimation

/-! ## Data model -/

/-- The four layout fields of an HTML element that the adapter reads; the layout engine
reports them as integers of either sign. -/
structure Element where
  offsetLeft : Int
  offsetTop : Int
  offsetHeight : Int
  offsetWidth : Int
  deriving DecidableEq, Repr

/-- The object literal `{left, top, height, width}`. -/
structure Rectangle where
  left : Int
  top : Int
  height : Int
  width : Int
  deriving DecidableEq, Repr

/-- The object literal `{id, rectangle}` pushed onto the accumulator. -/
structure Measurement where
  id : String
  rectangle : Rectangle
  deriving DecidableEq, Repr

/-- The three outcomes of `document.querySelector(sel)`. -/
inductive QueryResult where
  /-- The string is not a valid selector: the call throws a `SyntaxError`. -/
  | syntaxError
  /-- The selector is valid and matches no element: the call returns `null`. -/
  | null
  /-- The selector is valid: the call returns the first matching element. -/
  | element (el : Element)
  deriving DecidableEq, Repr

/-- The document state, as far as the adapter can observe it. -/
structure Document where
  querySelector : String → QueryResult

/-- An exception thrown while the frame callback runs. -/
inductive JsError where
  | syntaxError (sel : String)
  deriving DecidableEq, Repr

/-- Everything the adapter can affect, plus the document it reads. -/
structure World where
  /-- The document; the code only reads it. -/
  document : Document
  /-- The `ids` argument of every `console.log` call so far, oldest first.  The console keeps
  the array it was given, so an entry shows the request's `ids` as they are now. -/
  console : List (List String)
  /-- The callbacks handed to `requestAnimationFrame` and not yet run, oldest first; each
  closure is represented by the `ids` it captured. -/
  pending : List (List String)
  /-- The selectors passed to `document.querySelector` so far, oldest first. -/
  queries : List String
  /-- The arrays sent on `gotBoundingClientRects` so far, oldest first. -/
  sent : List (List Measurement)

/-! ## The code -/

/-- The template literal that wraps `id` into an attribute selector. -/
def selector (id : String) : String :=
  "[data-elm-flip-id=\"" ++ id ++ "\"]"

/-- The object pushed for an element found under `id`. -/
def measurement (id : String) (el : Element) : Measurement :=
  { id := id
    rectangle :=
      { left := el.offsetLeft
        top := el.offsetTop
        height := el.offsetHeight
        width := el.offsetWidth } }

/-- The callback given to `reduce`: `(acc, id) => { const el = querySelector(..); if (el)
acc.push(..); return acc }`.  The lookup is recorded in the world whether it throws or not. -/
def reduceCallback (w : World) (acc : List Measurement) (id : String) :
    World × Except JsError (List Measurement) :=
  let w1 := { w with queries := w.queries ++ [selector id] }
  match w.document.querySelector (selector id) with
  | .syntaxError => (w1, .error (.syntaxError (selector id)))
  | .null => (w1, .ok acc)
  | .element el => (w1, .ok (acc ++ [measurement id el]))

/-- The call `ids.reduce(callback, acc)`: left to right, stopping at the first exception. -/
def reduce (w : World) : List String → List Measurement →
    World × Except JsError (List Measurement)
  | [], acc => (w, .ok acc)
  | id :: rest, acc =>
    match reduceCallback w acc id with
    | (w1, .ok acc1) => reduce w1 rest acc1
    | (w1, .error e) => (w1, .error e)

/-- The frame callback `() => gotBoundingClientRects.send(ids.reduce(.., []))`.  The argument is
evaluated before the call, so an exception in `reduce` leaves the port untouched. -/
def frameCallback (ids : List String) (w : World) : World :=
  match reduce w ids [] with
  | (w1, .ok results) => { w1 with sent := w1.sent ++ [results] }
  | (w1, .error _) => w1

/-- The subscriber `(ids) => { console.log(.., ids); requestAnimationFrame(..) }`. -/
def subscriber (ids : List String) (w : World) : World :=
  { w with
    console := w.console ++ [ids]
    pending := w.pending ++ [ids] }

/-- The host runs an animation frame: every callback scheduled before the frame runs once, in
the order of scheduling; an exception in one callback does not stop the ones after it. -/
def animationFrame (w : World) : World :=
  w.pending.foldl (fun v ids => frameCallback ids v) { w with pending := [] }

/-- What the host does with the adapter: it delivers a request or it runs a frame. -/
inductive Step where
  | request (ids : List String)
  | frame
  deriving DecidableEq, Repr

/-- One step of the adapter. -/
def step (w : World) : Step → World
  | .request ids => subscriber ids w
  | .frame => animationFrame w

/-- A schedule of steps, run from left to right. -/
def run (w : World) (steps : List Step) : World :=
  steps.foldl step w

/-- The identifier lists of the requests in a schedule, in order. -/
def requests : List Step → List (List String)
  | [] => []
  | .request ids :: rest => ids :: requests rest
  | .frame :: rest => requests rest

/-! ## Vocabulary of the statements -/

/-- The lookup of `id` finds an element. -/
def resolves (d : Document) (id : String) : Bool :=
  match d.querySelector (selector id) with
  | .element _ => true
  | _ => false

/-- The lookup of `id` throws. -/
def throwsOn (d : Document) (id : String) : Bool :=
  match d.querySelector (selector id) with
  | .syntaxError => true
  | _ => false

/-- The entry that `id` contributes to a response, if any. -/
def entry (d : Document) (id : String) : Option Measurement :=
  match d.querySelector (selector id) with
  | .element el => some (measurement id el)
  | _ => none

/-- A world in which nothing has happened yet. -/
def World.start (d : Document) : World :=
  { document := d, console := [], pending := [], queries := [], sent := [] }

/-- A document described by two tables: the selector strings its selector parser rejects, and the
identifiers carried by its elements.  A rejected string throws; the selector of a listed
identifier finds the first element listed under it; any other string matches nothing. -/
def Document.ofElements (rejected : List String) (els : List (String × Element)) : Document where
  querySelector sel :=
    if sel ∈ rejected then .syntaxError
    else
      match els.find? (fun p => selector p.1 == sel) with
      | some p => .element p.2
      | none => .null

/-- The value of `ids.reduce(.., [])` in document `d`, or the exception it throws. -/
def measure (d : Document) (ids : List String) : Except JsError (List Measurement) :=
  (reduce (World.start d) ids []).2

/-- The document of the example: `a` has the box `{left:10, top:20, width:100, height:50}` and
no other identifier is present. -/
def docA : Document :=
  Document.ofElements []
    [("a", { offsetLeft := 10, offsetTop := 20, offsetHeight := 50, offsetWidth := 100 })]

/-- A document in which `x` is present. -/
def docX : Document :=
  Document.ofElements []
    [("x", { offsetLeft := 3, offsetTop := 4, offsetHeight := 5, offsetWidth := 6 })]

/-- A document whose element `a` lies five pixels to the left of its offset parent, as under a
negative left margin. -/
def docNegative : Document :=
  Document.ofElements []
    [("a", { offsetLeft := -5, offsetTop := 0, offsetHeight := 10, offsetWidth := 10 })]

/-- An empty document whose parser rejects the selector built from the identifier `a"b`: in
`[data-elm-flip-id="a"b"]` the value `"a"` is followed by `b` and a further quote, where the
attribute-selector grammar admits only a modifier and the closing bracket. -/
def docQuote : Document :=
  Document.ofElements ["[data-elm-flip-id=\"a\"b\"]"] []

/-- The arrays a frame sends when it runs the callbacks `callbacks` in document `d`: one for each
callback whose fold completes, none for a callback that throws. -/
def responses (d : Document) (callbacks : List (List String)) : List (List Measurement) :=
  callbacks.filterMap fun ids => (measure d ids).toOption

/-! ## How `reduce` and the frame callback behave -/

theorem reduce_fields (w : World) (ids : List String) (acc : List Measurement) :
    (reduce w ids acc).1.document = w.document ∧ (reduce w ids acc).1.console = w.console ∧
      (reduce w ids acc).1.pending = w.pending ∧ (reduce w ids acc).1.sent = w.sent := by
  induction ids generalizing w acc with
  | nil => simp [reduce]
  | cons id rest ih =>
    unfold reduce reduceCallback
    cases h : w.document.querySelector (selector id) with
    | syntaxError => simp
    | null => simpa using ih _ acc
    | element el => simpa using ih _ (acc ++ [measurement id el])

theorem reduce_of_noThrow (w : World) (ids : List String) (acc : List Measurement)
    (h : ∀ id ∈ ids, throwsOn w.document id = false) :
    reduce w ids acc =
      ({ w with queries := w.queries ++ ids.map selector },
        .ok (acc ++ ids.filterMap (entry w.document))) := by
  induction ids generalizing w acc with
  | nil => simp [reduce]
  | cons id rest ih =>
    have hid := h id (List.mem_cons_self _ _)
    have hrest : ∀ x ∈ rest, throwsOn w.document x = false :=
      fun x hx => h x (List.mem_cons_of_mem _ hx)
    unfold reduce reduceCallback
    cases hq : w.document.querySelector (selector id) with
    | syntaxError => simp [throwsOn, hq] at hid
    | null =>
      simp only []
      rw [ih { w with queries := w.queries ++ [selector id] } acc hrest]
      simp [entry, hq]
    | element el =>
      simp only []
      rw [ih { w with queries := w.queries ++ [selector id] } (acc ++ [measurement id el]) hrest]
      simp [entry, hq]

theorem reduce_of_throw (w : World) (ids : List String) (acc : List Measurement)
    (h : ∃ id ∈ ids, throwsOn w.document id = true) :
    ∃ e, (reduce w ids acc).2 = .error e := by
  induction ids generalizing w acc with
  | nil => simp at h
  | cons id rest ih =>
    unfold reduce reduceCallback
    cases hq : w.document.querySelector (selector id) with
    | syntaxError => exact ⟨_, rfl⟩
    | null =>
      obtain ⟨x, hx, hthrow⟩ := h
      rcases List.mem_cons.1 hx with rfl | hx
      · simp [throwsOn, hq] at hthrow
      · exact ih _ acc ⟨x, hx, hthrow⟩
    | element el =>
      obtain ⟨x, hx, hthrow⟩ := h
      rcases List.mem_cons.1 hx with rfl | hx
      · simp [throwsOn, hq] at hthrow
      · exact ih _ _ ⟨x, hx, hthrow⟩

theorem noThrow_or_throw (d : Document) (ids : List String) :
    (∀ id ∈ ids, throwsOn d id = false) ∨ ∃ id ∈ ids, throwsOn d id = true := by
  by_cases h : ∃ id ∈ ids, throwsOn d id = true
  · exact Or.inr h
  · refine Or.inl fun id hid => ?_
    cases hb : throwsOn d id with
    | false => rfl
    | true => exact absurd ⟨id, hid, hb⟩ h

theorem frameCallback_of_noThrow (w : World) (ids : List String)
    (h : ∀ id ∈ ids, throwsOn w.document id = false) :
    frameCallback ids w =
      { w with
        queries := w.queries ++ ids.map selector
        sent := w.sent ++ [ids.filterMap (entry w.document)] } := by
  simp [frameCallback, reduce_of_noThrow w ids [] h]

theorem frameCallback_of_throw (w : World) (ids : List String)
    (h : ∃ id ∈ ids, throwsOn w.document id = true) :
    (frameCallback ids w).sent = w.sent := by
  obtain ⟨e, he⟩ := reduce_of_throw w ids [] h
  have hf := (reduce_fields w ids []).2.2.2
  unfold frameCallback
  cases hr : reduce w ids [] with
  | mk w1 res =>
    rw [hr] at he hf
    simp only at he hf
    subst he
    simpa using hf

theorem frameCallback_fields (w : World) (ids : List String) :
    (frameCallback ids w).document = w.document ∧ (frameCallback ids w).console = w.console ∧
      (frameCallback ids w).pending = w.pending := by
  have hf := reduce_fields w ids []
  unfold frameCallback
  cases hr : reduce w ids [] with
  | mk w1 res =>
    rw [hr] at hf
    cases res <;> simpa using ⟨hf.1, hf.2.1, hf.2.2.1⟩

theorem sent_append_iff (w : World) (ids : List String) (r : List Measurement) :
    (frameCallback ids w).sent = w.sent ++ [r] ↔
      (∀ id ∈ ids, throwsOn w.document id = false) ∧ r = ids.filterMap (entry w.document) := by
  constructor
  · intro h
    rcases noThrow_or_throw w.document ids with hn | ht
    · rw [frameCallback_of_noThrow w ids hn] at h
      simp only [List.append_cancel_left_eq, List.cons.injEq, and_true] at h
      exact ⟨hn, h.symm⟩
    · rw [frameCallback_of_throw w ids ht] at h
      simp at h
  · rintro ⟨hn, rfl⟩
    rw [frameCallback_of_noThrow w ids hn]

theorem entry_eq_some_iff (d : Document) (id : String) (m : Measurement) :
    entry d id = some m ↔
      ∃ el, d.querySelector (selector id) = .element el ∧ m = measurement id el := by
  unfold entry
  cases d.querySelector (selector id) <;> simp [eq_comm]

theorem entry_eq_none_iff (d : Document) (id : String) :
    entry d id = none ↔ resolves d id = false := by
  unfold entry resolves
  cases d.querySelector (selector id) <;> simp

theorem not_throwsOn_of_resolves (d : Document) (id : String) (h : resolves d id = true) :
    throwsOn d id = false := by
  unfold resolves at h
  unfold throwsOn
  cases hq : d.querySelector (selector id) <;> simp_all

theorem map_id_filterMap_entry (d : Document) (ids : List String) :
    (ids.filterMap (entry d)).map (fun m => m.id) = ids.filter (resolves d) := by
  induction ids with
  | nil => rfl
  | cons id rest ih =>
    cases hq : d.querySelector (selector id) <;>
      simp [List.filterMap_cons, List.filter_cons, entry, resolves, hq, measurement, ih]

theorem length_filterMap_entry (d : Document) (ids : List String) :
    (ids.filterMap (entry d)).length + ids.countP (fun id => !resolves d id) = ids.length := by
  induction ids with
  | nil => rfl
  | cons id rest ih =>
    have hr : resolves d id = (entry d id).isSome := by
      unfold entry resolves
      cases d.querySelector (selector id) <;> rfl
    cases he : entry d id with
    | none =>
      rw [he] at hr
      simp only [List.filterMap_cons, he, List.countP_cons, hr, List.length_cons]
      simp only [Option.isSome_none, Bool.not_false, if_true]
      omega
    | some m =>
      rw [he] at hr
      simp only [List.filterMap_cons, he, List.countP_cons, hr, List.length_cons]
      simp only [Option.isSome_some, Bool.not_true]
      simp only [Bool.false_eq_true, if_false]
      omega

theorem filterMap_entry_of_resolved (d : Document) (ids : List String)
    (h : ∀ id ∈ ids, resolves d id = true) :
    (ids.filterMap (entry d)).map some = ids.map (entry d) := by
  induction ids with
  | nil => rfl
  | cons id rest ih =>
    have hid := h id (List.mem_cons_self _ _)
    have hrest := ih fun x hx => h x (List.mem_cons_of_mem _ hx)
    cases he : entry d id with
    | none => simp [(entry_eq_none_iff d id).1 he] at hid
    | some m => simp [List.filterMap_cons, he, hrest]

theorem countP_id_filterMap_entry (d : Document) (ids : List String) (id : String)
    (h : resolves d id = true) :
    (ids.filterMap (entry d)).countP (fun m => m.id == id) = ids.count id := by
  induction ids with
  | nil => rfl
  | cons x rest ih =>
    by_cases hx : x = id
    · subst hx
      cases he : entry d x with
      | none => simp [(entry_eq_none_iff d x).1 he] at h
      | some m =>
        obtain ⟨el, -, rfl⟩ := (entry_eq_some_iff d x m).1 he
        simp [List.filterMap_cons, he, List.countP_cons, measurement, ih]
    · cases he : entry d x with
      | none => simp [List.filterMap_cons, he, List.count_cons, hx, ih]
      | some m =>
        obtain ⟨el, -, rfl⟩ := (entry_eq_some_iff d x m).1 he
        simp [List.filterMap_cons, he, List.countP_cons, List.count_cons, measurement, hx, ih]

theorem throwsOn_eq_false_iff (d : Document) (id : String) :
    throwsOn d id = false ↔ d.querySelector (selector id) ≠ .syntaxError := by
  unfold throwsOn
  cases d.querySelector (selector id) <;> simp

theorem measure_of_noThrow (d : Document) (ids : List String)
    (h : ∀ id ∈ ids, throwsOn d id = false) :
    measure d ids = .ok (ids.filterMap (entry d)) := by
  unfold measure
  rw [reduce_of_noThrow (World.start d) ids [] h]
  simp [World.start]

theorem measure_of_throw (d : Document) (ids : List String)
    (h : ∃ id ∈ ids, throwsOn d id = true) : ∃ e, measure d ids = .error e :=
  reduce_of_throw (World.start d) ids [] h

theorem frameCallback_sent (w : World) (ids : List String) :
    (frameCallback ids w).sent = w.sent ++ responses w.document [ids] := by
  rcases noThrow_or_throw w.document ids with hn | ht
  · rw [frameCallback_of_noThrow w ids hn]
    simp [responses, measure_of_noThrow _ _ hn, Except.toOption]
  · obtain ⟨e, he⟩ := measure_of_throw _ _ ht
    rw [frameCallback_of_throw w ids ht]
    simp [responses, he, Except.toOption]

theorem responses_append (d : Document) (p q : List (List String)) :
    responses d (p ++ q) = responses d p ++ responses d q := by
  simp [responses, List.filterMap_append]

theorem responses_of_noThrow (d : Document) (callbacks : List (List String))
    (h : ∀ ids ∈ callbacks, ∀ id ∈ ids, throwsOn d id = false) :
    responses d callbacks = callbacks.map fun ids => ids.filterMap (entry d) := by
  induction callbacks with
  | nil => rfl
  | cons ids rest ih =>
    have h1 := measure_of_noThrow d ids (h ids (List.mem_cons_self _ _))
    have h2 := ih fun x hx => h x (List.mem_cons_of_mem _ hx)
    unfold responses at h2 ⊢
    rw [List.filterMap_cons, h1, h2]
    rfl

theorem foldl_frameCallback (callbacks : List (List String)) (v : World) :
    (callbacks.foldl (fun v ids => frameCallback ids v) v).document = v.document ∧
      (callbacks.foldl (fun v ids => frameCallback ids v) v).console = v.console ∧
      (callbacks.foldl (fun v ids => frameCallback ids v) v).pending = v.pending ∧
      (callbacks.foldl (fun v ids => frameCallback ids v) v).sent =
        v.sent ++ responses v.document callbacks := by
  induction callbacks generalizing v with
  | nil => simp [responses]
  | cons ids rest ih =>
    obtain ⟨hd, hc, hp⟩ := frameCallback_fields v ids
    obtain ⟨ihd, ihc, ihp, ihs⟩ := ih (frameCallback ids v)
    simp only [List.foldl_cons]
    refine ⟨ihd.trans hd, ihc.trans hc, ihp.trans hp, ?_⟩
    rw [ihs, hd, frameCallback_sent, List.append_assoc, ← responses_append]
    rfl

theorem animationFrame_fields (w : World) :
    (animationFrame w).document = w.document ∧ (animationFrame w).console = w.console ∧
      (animationFrame w).pending = [] ∧
      (animationFrame w).sent = w.sent ++ responses w.document w.pending := by
  simpa [animationFrame] using foldl_frameCallback w.pending { w with pending := [] }

theorem run_fields (w : World) (steps : List Step) :
    (run w steps).document = w.document ∧
      (run w steps).console = w.console ++ requests steps ∧
      (run w steps).sent ++ responses w.document (run w steps).pending =
        w.sent ++ responses w.document (w.pending ++ requests steps) := by
  induction steps generalizing w with
  | nil => simp [run, requests]
  | cons s rest ih =>
    cases s with
    | request ids =>
      obtain ⟨hd, hc, hs⟩ := ih (subscriber ids w)
      refine ⟨hd, ?_, ?_⟩
      · simpa [run, step, subscriber, requests] using hc
      · simpa [run, step, subscriber, requests] using hs
    | frame =>
      obtain ⟨hd, hc, hs⟩ := ih (animationFrame w)
      obtain ⟨fd, fc, fp, fs⟩ := animationFrame_fields w
      refine ⟨hd.trans fd, ?_, ?_⟩
      · simpa [run, step, requests, fc] using hc
      · rw [fd, fp, fs] at hs
        simpa [run, step, requests, responses_append, List.append_assoc] using hs

theorem run_then_frame_sent (w : World) (steps : List Step) :
    (run w (steps ++ [.frame])).sent =
      w.sent ++ responses w.document (w.pending ++ requests steps) := by
  obtain ⟨hd, -, hs⟩ := run_fields w steps
  have hf := (animationFrame_fields (run w steps)).2.2.2
  rw [hd] at hf
  simp only [run, List.foldl_append, List.foldl_cons, List.foldl_nil, step] at hf hs ⊢
  rw [hf, hs]

theorem reduce_snd_congr (w v : World) (hd : v.document = w.document) (ids : List String)
    (acc : List Measurement) : (reduce v ids acc).2 = (reduce w ids acc).2 := by
  induction ids generalizing w v acc with
  | nil => rfl
  | cons id rest ih =>
    obtain ⟨vd, vc, vp, vq, vs⟩ := v
    obtain ⟨wd, wc, wp, wq, ws⟩ := w
    dsimp only at hd
    subst hd
    unfold reduce reduceCallback
    dsimp only
    cases hq : vd.querySelector (selector id) with
    | syntaxError => rfl
    | null =>
      exact ih (World.mk vd wc wp (wq ++ [selector id]) ws)
        (World.mk vd vc vp (vq ++ [selector id]) vs) rfl acc
    | element el =>
      exact ih (World.mk vd wc wp (wq ++ [selector id]) ws)
        (World.mk vd vc vp (vq ++ [selector id]) vs) rfl (acc ++ [measurement id el])

theorem sent_congr (w v : World) (hd : v.document = w.document) (ids : List String)
    (r : List Measurement) (h : (frameCallback ids w).sent = w.sent ++ [r]) :
    (frameCallback ids v).sent = v.sent ++ [r] := by
  rw [sent_append_iff] at h ⊢
  rw [hd]
  exact h

/-! ## The response to one request -/

/-- C1: when every identifier of `ids` resolves to an element, the frame callback sends one
response of the same length as `ids`, whose `i`-th entry has the id `ids[i]` and the rectangle
made of that element's `offsetLeft`, `offsetTop`, `offsetHeight` and `offsetWidth`. -/
theorem response_of_all_resolved (w : World) (ids : List String)
    (h : ∀ id ∈ ids, resolves w.document id = true) :
    ∃ r, (frameCallback ids w).sent = w.sent ++ [r] ∧ r.length = ids.length ∧
      ∀ (i : Nat) (hi : i < ids.length), ∃ el,
        w.document.querySelector (selector ids[i]) = .element el ∧
          r[i]? = some
            { id := ids[i]
              rectangle :=
                { left := el.offsetLeft
                  top := el.offsetTop
                  height := el.offsetHeight
                  width := el.offsetWidth } } := by
  have hn : ∀ id ∈ ids, throwsOn w.document id = false :=
    fun id hid => not_throwsOn_of_resolves _ _ (h id hid)
  have hmap := filterMap_entry_of_resolved w.document ids h
  refine ⟨ids.filterMap (entry w.document), (sent_append_iff w ids _).2 ⟨hn, rfl⟩, ?_, ?_⟩
  · simpa using congrArg List.length hmap
  · intro i hi
    have hget := congrArg (fun l => l[i]?) hmap
    simp only [List.getElem?_map, List.getElem?_eq_getElem hi, Option.map_some'] at hget
    cases hr : (ids.filterMap (entry w.document))[i]? with
    | none => simp [hr] at hget
    | some m =>
      rw [hr] at hget
      simp only [Option.map_some', Option.some.injEq] at hget
      obtain ⟨el, hq, rfl⟩ := (entry_eq_some_iff _ _ m).1 hget.symm
      exact ⟨el, hq, rfl⟩

/-- Witness of C1 on the request `["x", "x"]` in a document where `x` is present. -/
theorem response_of_all_resolved_witness :
    (∀ id ∈ ["x", "x"], resolves (World.start docX).document id = true) ∧
      ∃ r, (frameCallback ["x", "x"] (World.start docX)).sent = (World.start docX).sent ++ [r] ∧
        r.length = ["x", "x"].length ∧
        ∀ (i : Nat) (hi : i < ["x", "x"].length), ∃ el,
          (World.start docX).document.querySelector (selector ["x", "x"][i]) = .element el ∧
            r[i]? = some
              { id := ["x", "x"][i]
                rectangle :=
                  { left := el.offsetLeft
                    top := el.offsetTop
                    height := el.offsetHeight
                    width := el.offsetWidth } } :=
  ⟨by decide, response_of_all_resolved (World.start docX) ["x", "x"] (by decide)⟩

/-- C2: a response never holds an entry whose lookup found no element, and its length is the
length of `ids` minus the number of positions of `ids` that did not resolve; the request
`["a", "b"]`, with `a` at `{left:10, top:20, width:100, height:50}` and `b` absent, is answered
by the single entry for `a`. -/
theorem unresolved_omitted :
    (∀ (w : World) (ids : List String) (r : List Measurement),
      (frameCallback ids w).sent = w.sent ++ [r] →
        (∀ m ∈ r, resolves w.document m.id = true) ∧
          r.length = ids.length - ids.countP (fun id => !resolves w.document id)) ∧
      (frameCallback ["a", "b"] (World.start docA)).sent =
        [[{ id := "a", rectangle := { left := 10, top := 20, height := 50, width := 100 } }]] := by
  refine ⟨?_, by decide⟩
  intro w ids r h
  obtain ⟨-, rfl⟩ := (sent_append_iff w ids r).1 h
  constructor
  · intro m hm
    have hmem : m.id ∈ ids.filter (resolves w.document) := by
      rw [← map_id_filterMap_entry]
      exact List.mem_map_of_mem _ hm
    exact (List.mem_filter.1 hmem).2
  · have := length_filterMap_entry w.document ids
    omega

/-- Witness of C2: the response to `["a", "b"]` where only `a` is present. -/
theorem unresolved_omitted_witness :
    (∀ m ∈ [measurement "a" ⟨10, 20, 50, 100⟩], resolves (World.start docA).document m.id = true) ∧
      [measurement "a" ⟨10, 20, 50, 100⟩].length =
        ["a", "b"].length - ["a", "b"].countP (fun id => !resolves (World.start docA).document id) :=
  unresolved_omitted.1 (World.start docA) ["a", "b"] [measurement "a" ⟨10, 20, 50, 100⟩]
    (by decide)

/-- C3: the ids of the entries of a response are `ids` filtered to the identifiers that
resolved, in request order; the response is the filter-map of the request under the lookup. -/
theorem response_is_filterMap (w : World) (ids : List String) (r : List Measurement)
    (h : (frameCallback ids w).sent = w.sent ++ [r]) :
    r.map (fun m => m.id) = ids.filter (resolves w.document) ∧
      r = ids.filterMap (fun id =>
        match w.document.querySelector (selector id) with
        | .element el => some (measurement id el)
        | _ => none) := by
  obtain ⟨-, rfl⟩ := (sent_append_iff w ids r).1 h
  exact ⟨map_id_filterMap_entry _ _, rfl⟩

/-- Witness of C3: the request `["b", "a", "b", "a"]` where only `a` is present. -/
theorem response_is_filterMap_witness :
    [measurement "a" ⟨10, 20, 50, 100⟩, measurement "a" ⟨10, 20, 50, 100⟩].map (fun m => m.id) =
        ["b", "a", "b", "a"].filter (resolves (World.start docA).document) ∧
      [measurement "a" ⟨10, 20, 50, 100⟩, measurement "a" ⟨10, 20, 50, 100⟩] =
        ["b", "a", "b", "a"].filterMap (fun id =>
          match (World.start docA).document.querySelector (selector id) with
          | .element el => some (measurement id el)
          | _ => none) :=
  response_is_filterMap (World.start docA) ["b", "a", "b", "a"]
    [measurement "a" ⟨10, 20, 50, 100⟩, measurement "a" ⟨10, 20, 50, 100⟩] (by decide)

/-- C9: an identifier that resolves to an element and occurs `k` times in `ids` contributes
exactly `k` entries to the response, every one of them the same measurement of that element;
the request `["x", "x"]` with `x` present is answered by two identical entries for `x`. -/
theorem duplicates_processed_independently :
    (∀ (w : World) (ids : List String) (r : List Measurement) (id : String) (el : Element),
      (frameCallback ids w).sent = w.sent ++ [r] →
      w.document.querySelector (selector id) = .element el →
        r.countP (fun m => m.id == id) = ids.count id ∧
          ∀ m ∈ r, m.id = id → m = measurement id el) ∧
      ∃ m, m.id = "x" ∧ (frameCallback ["x", "x"] (World.start docX)).sent = [[m, m]] := by
  refine ⟨?_, ⟨measurement "x" ⟨3, 4, 5, 6⟩, by decide, by decide⟩⟩
  intro w ids r id el h hq
  obtain ⟨-, rfl⟩ := (sent_append_iff w ids r).1 h
  constructor
  · exact countP_id_filterMap_entry _ _ _ (by simp [resolves, hq])
  · intro m hm hid
    obtain ⟨x, -, hx⟩ := List.mem_filterMap.1 hm
    obtain ⟨el1, hq1, rfl⟩ := (entry_eq_some_iff _ _ _).1 hx
    have hxid : x = id := hid
    subst hxid
    rw [hq] at hq1
    cases hq1
    rfl

/-- Witness of C9: `a` occurs twice in `["a", "b", "a"]` and is measured twice. -/
theorem duplicates_processed_independently_witness :
    [measurement "a" ⟨10, 20, 50, 100⟩, measurement "a" ⟨10, 20, 50, 100⟩].countP
        (fun m => m.id == "a") = ["a", "b", "a"].count "a" ∧
      ∀ m ∈ [measurement "a" ⟨10, 20, 50, 100⟩, measurement "a" ⟨10, 20, 50, 100⟩],
        m.id = "a" → m = measurement "a" ⟨10, 20, 50, 100⟩ :=
  duplicates_processed_independently.1 (World.start docA) ["a", "b", "a"]
    [measurement "a" ⟨10, 20, 50, 100⟩, measurement "a" ⟨10, 20, 50, 100⟩] "a" ⟨10, 20, 50, 100⟩
    (by decide) (by decide)

/-- C7 as stated fails: in a document whose element `a` has `offsetLeft = -5` the response to
`["a"]` carries a rectangle with `left = -5`. -/
theorem rectangle_negative_left :
    ∃ m, (frameCallback ["a"] (World.start docNegative)).sent = [[m]] ∧ m.rectangle.left < 0 :=
  ⟨measurement "a" ⟨-5, 0, 10, 10⟩, by decide, by decide⟩

/-- C7, amended: every rectangle of a response is a copy of the four offsets of the element its
id resolves to; so its fields are non-negative whenever the document hands out elements with
non-negative offsets only. -/
theorem rectangle_copies_offsets (w : World) (ids : List String) (r : List Measurement)
    (h : (frameCallback ids w).sent = w.sent ++ [r]) :
    (∀ m ∈ r, ∃ el, w.document.querySelector (selector m.id) = .element el ∧
      m.rectangle.left = el.offsetLeft ∧ m.rectangle.top = el.offsetTop ∧
      m.rectangle.height = el.offsetHeight ∧ m.rectangle.width = el.offsetWidth) ∧
    ((∀ sel el, w.document.querySelector sel = .element el →
        0 ≤ el.offsetLeft ∧ 0 ≤ el.offsetTop ∧ 0 ≤ el.offsetHeight ∧ 0 ≤ el.offsetWidth) →
      ∀ m ∈ r, 0 ≤ m.rectangle.left ∧ 0 ≤ m.rectangle.top ∧
        0 ≤ m.rectangle.height ∧ 0 ≤ m.rectangle.width) := by
  obtain ⟨-, rfl⟩ := (sent_append_iff w ids r).1 h
  have key : ∀ m ∈ ids.filterMap (entry w.document), ∃ el,
      w.document.querySelector (selector m.id) = .element el ∧
      m.rectangle.left = el.offsetLeft ∧ m.rectangle.top = el.offsetTop ∧
      m.rectangle.height = el.offsetHeight ∧ m.rectangle.width = el.offsetWidth := by
    intro m hm
    obtain ⟨x, -, hx⟩ := List.mem_filterMap.1 hm
    obtain ⟨el, hq, rfl⟩ := (entry_eq_some_iff _ _ _).1 hx
    exact ⟨el, hq, rfl, rfl, rfl, rfl⟩
  refine ⟨key, fun hpos m hm => ?_⟩
  obtain ⟨el, hq, hl, ht, hh, hw⟩ := key m hm
  obtain ⟨pl, pt, ph, pw⟩ := hpos _ el hq
  exact ⟨hl ▸ pl, ht ▸ pt, hh ▸ ph, hw ▸ pw⟩

/-- Witness of the amended C7 on the request `["a", "b"]` where only `a` is present. -/
theorem rectangle_copies_offsets_witness :
    (∀ m ∈ [measurement "a" ⟨10, 20, 50, 100⟩], ∃ el,
      (World.start docA).document.querySelector (selector m.id) = .element el ∧
      m.rectangle.left = el.offsetLeft ∧ m.rectangle.top = el.offsetTop ∧
      m.rectangle.height = el.offsetHeight ∧ m.rectangle.width = el.offsetWidth) ∧
    ((∀ sel el, (World.start docA).document.querySelector sel = .element el →
        0 ≤ el.offsetLeft ∧ 0 ≤ el.offsetTop ∧ 0 ≤ el.offsetHeight ∧ 0 ≤ el.offsetWidth) →
      ∀ m ∈ [measurement "a" ⟨10, 20, 50, 100⟩], 0 ≤ m.rectangle.left ∧ 0 ≤ m.rectangle.top ∧
        0 ≤ m.rectangle.height ∧ 0 ≤ m.rectangle.width) :=
  rectangle_copies_offsets (World.start docA) ["a", "b"] [measurement "a" ⟨10, 20, 50, 100⟩]
    (by decide)

/-! ## Exceptions -/

/-- C6 as stated fails: for the identifier `a"b`, in a document whose parser rejects the selector
`[data-elm-flip-id="a"b"]`, the fold throws a `SyntaxError` and the frame callback sends
nothing. -/
theorem quote_in_identifier_throws :
    (reduce (World.start docQuote) ["a\"b"] []).2 =
        .error (.syntaxError "[data-elm-flip-id=\"a\"b\"]") ∧
      (frameCallback ["a\"b"] (World.start docQuote)).sent = [] :=
  ⟨by rfl, by decide⟩

/-- C6, amended: when `querySelector` accepts the selector built from every identifier of the
request, the frame callback completes and sends one response, whether or not the identifiers
resolve; when it rejects one of them the fold throws and nothing is sent. -/
theorem callback_completes_unless_selector_rejected (w : World) (ids : List String) :
    ((∀ id ∈ ids, w.document.querySelector (selector id) ≠ .syntaxError) →
      ∃ r, (reduce w ids []).2 = .ok r ∧ (frameCallback ids w).sent = w.sent ++ [r]) ∧
    ((∃ id ∈ ids, w.document.querySelector (selector id) = .syntaxError) →
      (∃ e, (reduce w ids []).2 = .error e) ∧ (frameCallback ids w).sent = w.sent) := by
  constructor
  · intro h
    have hn : ∀ id ∈ ids, throwsOn w.document id = false :=
      fun id hid => (throwsOn_eq_false_iff _ _).2 (h id hid)
    refine ⟨ids.filterMap (entry w.document), ?_, (sent_append_iff w ids _).2 ⟨hn, rfl⟩⟩
    rw [reduce_of_noThrow w ids [] hn, List.nil_append]
  · rintro ⟨id, hid, hq⟩
    have ht : ∃ id ∈ ids, throwsOn w.document id = true := ⟨id, hid, by simp [throwsOn, hq]⟩
    exact ⟨reduce_of_throw w ids [] ht, frameCallback_of_throw w ids ht⟩

/-- Witness of the amended C6: the request `["a", "b"]`, where `b` does not resolve, completes
and is answered. -/
theorem callback_completes_unless_selector_rejected_witness :
    ∃ r, (reduce (World.start docA) ["a", "b"] []).2 = .ok r ∧
      (frameCallback ["a", "b"] (World.start docA)).sent = (World.start docA).sent ++ [r] :=
  (callback_completes_unless_selector_rejected (World.start docA) ["a", "b"]).1 (by decide)

/-! ## Requests and frames -/

/-- C4: handling a request sends nothing and looks nothing up, it only schedules the callback;
a step that sends or looks up is a frame; and the response to a request, with the lookups
behind it, appears when the next frame runs. -/
theorem response_deferred_to_frame :
    (∀ (w : World) (ids : List String),
      (subscriber ids w).sent = w.sent ∧ (subscriber ids w).queries = w.queries ∧
        (subscriber ids w).pending = w.pending ++ [ids]) ∧
    (∀ (w : World) (s : Step),
      (step w s).sent ≠ w.sent ∨ (step w s).queries ≠ w.queries → s = .frame) ∧
    (∀ (w : World) (ids : List String) (r : List Measurement), w.pending = [] →
      (reduce w ids []).2 = .ok r →
        (step w (.request ids)).sent = w.sent ∧
          (step (step w (.request ids)) .frame).sent = w.sent ++ [r] ∧
          (step (step w (.request ids)) .frame).queries = w.queries ++ ids.map selector) := by
  refine ⟨fun w ids => ⟨rfl, rfl, rfl⟩, ?_, ?_⟩
  · intro w s h
    cases s with
    | request ids => simp [step, subscriber] at h
    | frame => rfl
  · intro w ids r hp hr
    have hn : ∀ id ∈ ids, throwsOn w.document id = false := by
      rcases noThrow_or_throw w.document ids with hn | ht
      · exact hn
      · obtain ⟨e, he⟩ := reduce_of_throw w ids [] ht
        rw [he] at hr
        cases hr
    rw [reduce_of_noThrow w ids [] hn] at hr
    simp only [List.nil_append, Except.ok.injEq] at hr
    subst hr
    refine ⟨rfl, ?_, ?_⟩
    · simp only [step, animationFrame, subscriber, hp, List.nil_append, List.foldl_cons,
        List.foldl_nil]
      rw [frameCallback_of_noThrow (World.mk w.document (w.console ++ [ids]) [] w.queries w.sent)
        ids hn]
    · simp only [step, animationFrame, subscriber, hp, List.nil_append, List.foldl_cons,
        List.foldl_nil]
      rw [frameCallback_of_noThrow (World.mk w.document (w.console ++ [ids]) [] w.queries w.sent)
        ids hn]

/-- Witness of C4: the request `["a", "b"]` is answered in the frame after it, not before. -/
theorem response_deferred_to_frame_witness :
    (step (World.start docA) (.request ["a", "b"])).sent = (World.start docA).sent ∧
      (step (step (World.start docA) (.request ["a", "b"])) .frame).sent =
        (World.start docA).sent ++ [[measurement "a" ⟨10, 20, 50, 100⟩]] ∧
      (step (step (World.start docA) (.request ["a", "b"])) .frame).queries =
        (World.start docA).queries ++ ["a", "b"].map selector :=
  response_deferred_to_frame.2.2 (World.start docA) ["a", "b"]
    [measurement "a" ⟨10, 20, 50, 100⟩] rfl rfl

/-- C5 as stated fails: the request `["a\"b"]`, whose selector the document rejects, is followed
by a frame and no response has been sent. -/
theorem request_without_response :
    requests [.request ["a\"b"], .frame] = [["a\"b"]] ∧
      (run (World.start docQuote) [.request ["a\"b"], .frame]).pending = [] ∧
      (run (World.start docQuote) [.request ["a\"b"], .frame]).sent = [] := by
  decide

/-- C5, amended: every request schedules one frame callback; a callback whose lookups all
complete sends one response and a callback with a rejected selector sends none; so after a
schedule of requests and frames that ends with a frame the responses sent are those of the
requests whose folds complete, in request order, each computed from its own ids, and when no
selector is rejected there are as many responses as requests; the request `[]` is answered
by `[]`. -/
theorem one_response_per_completed_request :
    (∀ (w : World) (ids : List String), (subscriber ids w).pending = w.pending ++ [ids]) ∧
    (∀ (w : World) (ids : List String),
      (∀ id ∈ ids, w.document.querySelector (selector id) ≠ .syntaxError) →
        ∃ r, measure w.document ids = .ok r ∧ (frameCallback ids w).sent = w.sent ++ [r]) ∧
    (∀ (w : World) (steps : List Step), w.pending = [] →
      (run w (steps ++ [.frame])).pending = [] ∧
        (run w (steps ++ [.frame])).sent =
          w.sent ++ (requests steps).filterMap (fun ids => (measure w.document ids).toOption)) ∧
    (∀ (w : World) (steps : List Step), w.pending = [] →
      (∀ ids ∈ requests steps, ∀ id ∈ ids,
        w.document.querySelector (selector id) ≠ .syntaxError) →
        (run w (steps ++ [.frame])).sent.length = w.sent.length + (requests steps).length ∧
          (run w (steps ++ [.frame])).sent.map .ok =
            w.sent.map .ok ++ (requests steps).map (measure w.document)) ∧
    (∀ w : World, (frameCallback [] w).sent = w.sent ++ [[]]) := by
  refine ⟨fun w ids => rfl, ?_, ?_, ?_, fun w => rfl⟩
  · intro w ids h
    have hn : ∀ id ∈ ids, throwsOn w.document id = false :=
      fun id hid => (throwsOn_eq_false_iff _ _).2 (h id hid)
    exact ⟨_, measure_of_noThrow _ _ hn, (sent_append_iff w ids _).2 ⟨hn, rfl⟩⟩
  · intro w steps hp
    constructor
    · have := (animationFrame_fields (run w steps)).2.2.1
      simpa [run, step] using this
    · have := run_then_frame_sent w steps
      rw [hp] at this
      simpa [responses] using this
  · intro w steps hp h
    have hn : ∀ ids ∈ requests steps, ∀ id ∈ ids, throwsOn w.document id = false :=
      fun ids hids id hid => (throwsOn_eq_false_iff _ _).2 (h ids hids id hid)
    have hs := run_then_frame_sent w steps
    rw [hp, List.nil_append, responses_of_noThrow _ _ hn] at hs
    have hm : (requests steps).map (measure w.document) =
        ((requests steps).map fun ids => ids.filterMap (entry w.document)).map .ok := by
      rw [List.map_map]
      exact List.map_congr_left fun ids hids => measure_of_noThrow _ _ (hn ids hids)
    rw [hs, hm]
    simp

/-- Witness of the amended C5: two requests pending in the same frame, the second one empty,
are answered by two responses in request order. -/
theorem one_response_per_completed_request_witness :
    (run (World.start docA) ([.request ["a", "b"], .request []] ++ [.frame])).sent.length =
        (World.start docA).sent.length + (requests [.request ["a", "b"], .request []]).length ∧
      (run (World.start docA) ([.request ["a", "b"], .request []] ++ [.frame])).sent.map .ok =
        (World.start docA).sent.map .ok ++
          (requests [.request ["a", "b"], .request []]).map (measure (World.start docA).document) :=
  one_response_per_completed_request.2.2.2.1 (World.start docA)
    [.request ["a", "b"], .request []] rfl (by decide)

/-- C8 as stated fails: for the identifier `a"b`, in a document whose parser rejects the selector
built from it, the fold throws in the first run and again in the second, and after the two
runs no response has been sent, so there are no two responses to compare. -/
theorem rejected_selector_twice_without_response :
    (reduce (World.start docQuote) ["a\"b"] []).2 =
        .error (.syntaxError "[data-elm-flip-id=\"a\"b\"]") ∧
      (frameCallback ["a\"b"] (World.start docQuote)).sent = [] ∧
      (reduce (frameCallback ["a\"b"] (World.start docQuote)) ["a\"b"] []).2 =
        .error (.syntaxError "[data-elm-flip-id=\"a\"b\"]") ∧
      (frameCallback ["a\"b"] (frameCallback ["a\"b"] (World.start docQuote))).sent = [] :=
  ⟨by rfl, by decide, by rfl, by decide⟩

/-- C8, amended: a run of the frame callback leaves the document as it was and the outcome of
the fold depends on the document only; so when `querySelector` accepts the selector built from
every identifier, the first run sends a response `r`, a run on the same ids in any world with
the same document sends the same `r`, and two runs in a row send `r` twice; when a selector is
rejected neither run sends anything. -/
theorem same_request_same_response (w v : World) (ids : List String)
    (hd : v.document = w.document) :
    (frameCallback ids w).document = w.document ∧
      (reduce v ids []).2 = (reduce w ids []).2 ∧
      ((∀ id ∈ ids, w.document.querySelector (selector id) ≠ .syntaxError) →
        ∃ r, (reduce w ids []).2 = .ok r ∧
          (frameCallback ids w).sent = w.sent ++ [r] ∧
          (frameCallback ids v).sent = v.sent ++ [r] ∧
          (frameCallback ids (frameCallback ids w)).sent = w.sent ++ [r, r]) ∧
      ((∃ id ∈ ids, w.document.querySelector (selector id) = .syntaxError) →
        (frameCallback ids w).sent = w.sent ∧
          (frameCallback ids v).sent = v.sent ∧
          (frameCallback ids (frameCallback ids w)).sent = w.sent) := by
  have hw := (frameCallback_fields w ids).1
  refine ⟨hw, reduce_snd_congr w v hd ids [], fun h => ?_, ?_⟩
  · have hn : ∀ id ∈ ids, throwsOn w.document id = false :=
      fun id hid => (throwsOn_eq_false_iff _ _).2 (h id hid)
    have h1 : (frameCallback ids w).sent = w.sent ++ [ids.filterMap (entry w.document)] :=
      (sent_append_iff w ids _).2 ⟨hn, rfl⟩
    refine ⟨ids.filterMap (entry w.document), ?_, h1, sent_congr w v hd ids _ h1, ?_⟩
    · rw [reduce_of_noThrow w ids [] hn, List.nil_append]
    · rw [sent_congr w (frameCallback ids w) hw ids _ h1, h1]
      simp
  · rintro ⟨id, hid, hq⟩
    have ht : ∃ id ∈ ids, throwsOn w.document id = true := ⟨id, hid, by simp [throwsOn, hq]⟩
    have h1 := frameCallback_of_throw w ids ht
    refine ⟨h1, frameCallback_of_throw v ids (hd ▸ ht), ?_⟩
    rw [frameCallback_of_throw (frameCallback ids w) ids (hw.symm ▸ ht), h1]

/-- Witness of the amended C8: the request `["a", "b"]`, where `b` does not resolve, run twice in
a row in the same document sends the same response twice. -/
theorem same_request_same_response_witness :
    ∃ r, (reduce (World.start docA) ["a", "b"] []).2 = .ok r ∧
      (frameCallback ["a", "b"] (World.start docA)).sent = (World.start docA).sent ++ [r] ∧
      (frameCallback ["a", "b"] (frameCallback ["a", "b"] (World.start docA))).sent =
        (frameCallback ["a", "b"] (World.start docA)).sent ++ [r] ∧
      (frameCallback ["a", "b"] (frameCallback ["a", "b"] (World.start docA))).sent =
        (World.start docA).sent ++ [r, r] :=
  (same_request_same_response (World.start docA) (frameCallback ["a", "b"] (World.start docA))
    ["a", "b"] rfl).2.2.1 (by decide)

/-- C10: the subscriber appends one console entry, the request's ids as received, and touches
neither the document nor the port; the frame callback changes neither the document, nor the
console with the ids logged there, nor the ids held by the scheduled callbacks, and it leaves
the arrays already sent as they were, adding at most one new array; over a whole schedule the
console gains one entry for each request, in order, and the document stays as it was. -/
theorem only_reads_and_one_trace :
    (∀ (w : World) (ids : List String),
      (subscriber ids w).console = w.console ++ [ids] ∧
        (subscriber ids w).document = w.document ∧
        (subscriber ids w).queries = w.queries ∧
        (subscriber ids w).sent = w.sent ∧
        (subscriber ids w).pending = w.pending ++ [ids]) ∧
    (∀ (w : World) (ids : List String),
      (frameCallback ids w).document = w.document ∧
        (frameCallback ids w).console = w.console ∧
        (frameCallback ids w).pending = w.pending ∧
        ∃ out, (frameCallback ids w).sent = w.sent ++ out ∧ out.length ≤ 1) ∧
    (∀ w : World,
      (animationFrame w).document = w.document ∧ (animationFrame w).console = w.console) ∧
    (∀ (w : World) (steps : List Step),
      (run w steps).document = w.document ∧
        (run w steps).console = w.console ++ requests steps) := by
  refine ⟨fun w ids => ⟨rfl, rfl, rfl, rfl, rfl⟩, fun w ids => ?_, fun w => ?_,
    fun w steps => ?_⟩
  · obtain ⟨hd, hc, hp⟩ := frameCallback_fields w ids
    refine ⟨hd, hc, hp, responses w.document [ids], frameCallback_sent w ids, ?_⟩
    unfold responses
    exact (List.length_filterMap_le _ _).trans (by simp)
  · exact ⟨(animationFrame_fields w).1, (animationFrame_fields w).2.1⟩
  · exact ⟨(run_fields w steps).1, (run_fields w steps).2.1⟩

end FlipAnimation
